import Mathlib

/-!
# Configuration-aware file discovery (ESLint helper functions)

A shallow embedding of the file-discovery engine from the repository's
helper module: `findFiles`, `globSearch`, `globMatch`, `globMultiSearch`
and `throwErrorForUnmatchedPatterns`.

Modelling conventions:

* External libraries (`node:path`, `is-glob`, `glob-parent`, `minimatch`)
  are abstracted into a `PathEnv` record of opaque-but-total functions; a
  compiled `Minimatch` instance is represented by its relative pattern
  string, with `PathEnv.mmMatch` playing the role of `matcher.match(path)`
  and `PathEnv.mmMatchDir` the role of `matcher.match(path, true)` (the
  directory-descent variant).
* The filesystem seen by the `@humanfs/node` walker is a map from an
  absolute directory path to its listing, a finite forest `FSTree`
  (siblings in listing order, children of a directory nested).  `none`
  means "does not exist or is not a directory", matching
  `hfs.isDirectory` returning false.
* `fsp.stat(...).catch(() => {})` is modelled as a total function
  `String → Option FileKind` (a failed stat is `none`).
* The configuration provider (`configLoader`) is fallible: its two
  operations return `Except String _`; an `.error` models a provider
  exception, which the source propagates unchanged (a "system error",
  i.e. an error without a `basePath` property).
* JavaScript `Map` and `Set` are modelled as insertion-ordered
  association lists / lists without duplicates; `[...new Set(xs)]` is
  `jsSetDedup` (first occurrence kept).
* `Array.prototype.flatMap(result => result.value)` over settled promise
  results maps a rejected result to `undefined`; the element type of the
  final result list is therefore `Option String`, with `none` standing
  for `undefined` (the theorems show `none` never actually occurs).
-/

set_option maxHeartbeats 1000000

namespace EslintFileDiscovery

/-- Result kind of `fsp.stat`: regular file, directory, or something else
(socket, FIFO, ...). -/
inductive FileKind where
  | file
  | directory
  | other
deriving DecidableEq

/-- A finite directory listing: a forest of named entries in listing
order.  `file name rest` is a non-directory entry followed by its later
siblings; `dir name children rest` is a directory entry with its own
listing and its later siblings. -/
inductive FSTree where
  | nil : FSTree
  | file (name : String) (rest : FSTree) : FSTree
  | dir (name : String) (children : FSTree) (rest : FSTree) : FSTree
deriving DecidableEq

/-- All entry names in the forest are nonempty (true of any real
directory listing). -/
def FSTree.okNames : FSTree → Bool
  | .nil => true
  | .file n r => (n != "") && r.okNames
  | .dir n c r => (n != "") && c.okNames && r.okNames

/-- The external path/glob libraries used by the source, abstracted as
total functions. -/
structure PathEnv where
  /-- `isGlob` from the `is-glob` package (applied to a posix-normalized
  pattern; we model the posix platform, where `path.sep = "/"`). -/
  isGlob : String → Bool
  /-- `globParent` from the `glob-parent` package. -/
  globParent : String → String
  /-- `path.resolve`. -/
  resolve : String → String → String
  /-- `path.relative`. -/
  relative : String → String → String
  /-- `new Minimatch(pattern, { dot: true }).match(path)`. -/
  mmMatch : String → String → Bool
  /-- `new Minimatch(pattern, { dot: true }).match(path, true)`:
  the directory-descent (prefix) match. -/
  mmMatchDir : String → String → Bool

/-- The configuration provider.  `getConfig` collapses
`loadConfigArrayForFile` followed by `configs.getConfig` (returning the
aggregated config or `undefined`, modelled as `Option Unit`);
`isDirectoryIgnored` collapses `loadConfigArrayForDirectory` followed by
`configs.isDirectoryIgnored`.  `.error` models a thrown provider error. -/
structure ConfigLoader where
  getConfig : String → Except String (Option Unit)
  isDirectoryIgnored : String → Except String Bool

/-- A provider that never throws. -/
def ConfigLoader.total (g : String → Option Unit) (d : String → Bool) : ConfigLoader :=
  { getConfig := fun p => .ok (g p), isDirectoryIgnored := fun p => .ok (d p) }

/-- The error values thrown by the discovery engine.  `system` stands for
any foreign error (I/O or provider failure), which carries no `basePath`
property. -/
inductive FindError where
  | noFilesFound (pattern : String) (globEnabled : Bool)
  | allFilesIgnored (pattern : String)
  | unmatchedSearchPatterns (basePath : String)
      (unmatchedPatterns patterns rawPatterns : List String)
  | system (message : String)
deriving DecidableEq

/-- `error.basePath` truthiness test from `globMultiSearch`. -/
def FindError.hasBasePath : FindError → Bool
  | .unmatchedSearchPatterns .. => true
  | _ => false

/-- `error.unmatchedPatterns` (only read after `hasBasePath` holds). -/
def FindError.unmatchedOf : FindError → List String
  | .unmatchedSearchPatterns _ u _ _ => u
  | _ => []

instance {ε α : Type} [DecidableEq ε] [DecidableEq α] : DecidableEq (Except ε α) := fun a b =>
  match a, b with
  | .ok x, .ok y =>
      if h : x = y then .isTrue (by simp [h]) else .isFalse (by simp [h])
  | .ok _, .error _ => .isFalse (by simp)
  | .error _, .ok _ => .isFalse (by simp)
  | .error x, .error y =>
      if h : x = y then .isTrue (by simp [h]) else .isFalse (by simp [h])

/-- `normalizeToPosix`: replace every backslash with a forward slash
(the source's `pattern.replace(/\\/gu, "/")`, written character by
character). -/
def normalizeToPosix (p : String) : String :=
  ⟨p.data.map (fun c => if c = '\\' then '/' else c)⟩

/-- Relative path of a child entry: the walker joins the parent's
relative path and the entry name with `/` (entries directly under the
walk root have the bare name). -/
def joinRel (pre name : String) : String :=
  if pre = "" then name else pre ++ "/" ++ name

/-- JavaScript `Map.set` on an insertion-ordered association list:
overwrite in place if the key exists, else append. -/
def mapSet (m : List (String × String)) (k v : String) : List (String × String) :=
  if m.any (fun e => e.1 = k) then
    m.map (fun e => if e.1 = k then (k, v) else e)
  else m ++ [(k, v)]

/-- JavaScript `Map.get` (the source only calls it on present keys; an
absent key yields the dummy `""`). -/
def mapGet (m : List (String × String)) (k : String) : String :=
  (((m.find? (fun e => e.1 = k)).map Prod.snd)).getD ""

/-- `[...new Set(xs)]`: deduplicate keeping the first occurrence, in
order. -/
def jsSetDedupAux {α : Type} [DecidableEq α] (seen : List α) : List α → List α
  | [] => []
  | x :: xs =>
      if x ∈ seen then jsSetDedupAux seen xs
      else x :: jsSetDedupAux (x :: seen) xs

/-- `[...new Set(xs)]`. -/
def jsSetDedup {α : Type} [DecidableEq α] (l : List α) : List α :=
  jsSetDedupAux [] l

/-! ## The per-group walk (`globSearch`) -/

/-- State carried through one group walk: the file paths collected by the
`for await` loop (already resolved against the base path) and the set of
still-unmatched relative patterns (a JavaScript `Set`, insertion
ordered). -/
structure WalkState where
  files : List String
  unmatched : List String
deriving DecidableEq

/-- The `entryFilter` of `globSearch` applied to one non-directory entry
at relative path `r`, together with the `for await` push of the resolved
path when the filter accepts.  `matchers` is the list of compiled
matchers, each represented by its relative pattern string
(`matcher.pattern`). -/
def entryFilterStep (penv : PathEnv) (loader : ConfigLoader) (matchers : List String)
    (basePath r : String) (s : WalkState) : Except String WalkState :=
  let absolutePath := penv.resolve basePath r
  match loader.getConfig absolutePath with
  | .error e => .error e
  | .ok config =>
      let step :=
        if s.unmatched.isEmpty then
          (matchers.any (fun m => penv.mmMatch m r), s.unmatched)
        else
          matchers.foldl
            (fun acc m =>
              let pathMatches := penv.mmMatch m r
              let u := if pathMatches && config.isSome then
                  acc.2.filter (fun q => q != m)
                else acc.2
              (pathMatches || acc.1, u))
            (false, s.unmatched)
      let keep := step.1 && config.isSome
      .ok { files := if keep then s.files ++ [absolutePath] else s.files,
            unmatched := step.2 }

/-- The `directoryFilter` of `globSearch` at relative path `r`: prune
unless some matcher prefix-matches, then (and only then) consult the
configuration provider. -/
def directoryFilterStep (penv : PathEnv) (loader : ConfigLoader) (matchers : List String)
    (basePath r : String) : Except String Bool :=
  if !(matchers.any (fun m => penv.mmMatchDir m r)) then .ok false
  else
    match loader.isDirectoryIgnored (penv.resolve basePath r) with
    | .error e => .error e
    | .ok ignored => .ok (!ignored)

/-- `hfs.walk` specialised to the filters of `globSearch`: depth-first in
listing order, descendants of a directory before its later siblings.
`pre` is the relative path of the listing being traversed (`""` at the
walk root; the root itself is enumerated unconditionally — no filter is
ever applied to it). -/
def walkTree (penv : PathEnv) (loader : ConfigLoader) (matchers : List String)
    (basePath : String) : FSTree → String → WalkState → Except String WalkState
  | .nil, _, s => .ok s
  | .file name rest, pre, s =>
      match entryFilterStep penv loader matchers basePath (joinRel pre name) s with
      | .error e => .error e
      | .ok s1 => walkTree penv loader matchers basePath rest pre s1
  | .dir name children rest, pre, s =>
      -- `entryFilter` returns `false` for directories without touching
      -- any state, so only the `directoryFilter` is observable here.
      match directoryFilterStep penv loader matchers basePath (joinRel pre name) with
      | .error e => .error e
      | .ok true =>
          match walkTree penv loader matchers basePath children (joinRel pre name) s with
          | .error e => .error e
          | .ok s1 => walkTree penv loader matchers basePath rest pre s1
      | .ok false => walkTree penv loader matchers basePath rest pre s

/-- `globSearch`: search one group's base directory.  `fs` maps an
absolute directory path to its listing (`none` when `hfs.isDirectory` is
false). -/
def globSearch (penv : PathEnv) (fs : String → Option FSTree) (loader : ConfigLoader)
    (basePath : String) (patterns rawPatterns : List String)
    (errorOnUnmatchedPattern : Bool) : Except FindError (List String) :=
  if patterns.isEmpty then .ok []
  else
    let relativeToPatterns := patterns.foldl
      (fun m p => mapSet m (normalizeToPosix (penv.relative basePath p)) p) []
    let matchers := patterns.map (fun p => normalizeToPosix (penv.relative basePath p))
    let unmatched0 := relativeToPatterns.map Prod.fst
    let walked :=
      match fs basePath with
      | some tree => walkTree penv loader matchers basePath tree "" ⟨[], unmatched0⟩
      | none => .ok ⟨[], unmatched0⟩
    match walked with
    | .error message => .error (.system message)
    | .ok s =>
        if errorOnUnmatchedPattern && !s.unmatched.isEmpty then
          .error (.unmatchedSearchPatterns basePath
            (s.unmatched.map (mapGet relativeToPatterns)) patterns rawPatterns)
        else .ok s.files

/-! ## The reconciling second walk (`globMatch`) -/

/-- The walk of `globMatch`, threading its `found` flag.  Its
`entryFilter` sets `found` on the first full match of a non-directory
entry; its `directoryFilter` descends only while `!found` and the single
matcher prefix-matches.  (The source stops the async iteration at the
first yielded entry; since `found` is monotone and only ever set by a
yield, running the walk to completion produces the same flag.) -/
def globMatchTree (penv : PathEnv) (pattern : String) :
    FSTree → String → Bool → Bool
  | .nil, _, found => found
  | .file name rest, pre, found =>
      let r := joinRel pre name
      let found1 := if !found && penv.mmMatch pattern r then true else found
      globMatchTree penv pattern rest pre found1
  | .dir name children rest, pre, found =>
      let r := joinRel pre name
      if !found && penv.mmMatchDir pattern r then
        globMatchTree penv pattern rest pre
          (globMatchTree penv pattern children r found)
      else globMatchTree penv pattern rest pre found

/-- `globMatch`: does the single pattern match anything under `basePath`
when ignoring is disabled?  Returns `false` without walking when
`basePath` is not a directory. -/
def globMatch (penv : PathEnv) (fs : String → Option FSTree)
    (basePath pattern : String) : Bool :=
  let patternToUse := normalizeToPosix (penv.relative basePath pattern)
  match fs basePath with
  | some tree => globMatchTree penv patternToUse tree "" false
  | none => false

/-- `throwErrorForUnmatchedPatterns`: the error raised for the first
unmatched pattern (the source only ever calls this with the pattern
present in `patterns`; the out-of-range index yields the dummy `""`). -/
def throwErrorForUnmatchedPatterns (penv : PathEnv) (fs : String → Option FSTree)
    (basePath : String) (patterns rawPatterns unmatchedPatterns : List String) :
    FindError :=
  let pattern := unmatchedPatterns.headD ""
  let rawPattern := rawPatterns.getD (patterns.indexOf pattern) ""
  if globMatch penv fs basePath pattern then .allFilesIgnored rawPattern
  else .noFilesFound rawPattern true

/-! ## `globMultiSearch` -/

/-- One entry of the `searches` map: normalized (absolute) patterns and
the raw patterns as entered, positionally parallel. -/
structure GlobSearchSpec where
  patterns : List String
  rawPatterns : List String
deriving DecidableEq

/-- The first loop of `globMultiSearch` over the settled results: rethrow
the first error without a `basePath`; for an error with a `basePath`,
reconcile (and throw) when `errorOnUnmatchedPattern`, else skip. -/
def handleSearchErrors (penv : PathEnv) (fs : String → Option FSTree)
    (errorOnUnmatchedPattern : Bool) :
    List ((String × GlobSearchSpec) × Except FindError (List String)) →
      Option FindError
  | [] => none
  | (search, result) :: rest =>
      match result with
      | .ok _ => handleSearchErrors penv fs errorOnUnmatchedPattern rest
      | .error e =>
          if !e.hasBasePath then some e
          else if errorOnUnmatchedPattern then
            some (throwErrorForUnmatchedPatterns penv fs search.1
              search.2.patterns search.2.rawPatterns e.unmatchedOf)
          else handleSearchErrors penv fs errorOnUnmatchedPattern rest

/-- `globMultiSearch`: run every non-empty search, handle errors, then
flat-map the settled values.  A rejected result's `value` is `undefined`
in JavaScript, modelled by `none` (the theorems show no rejected result
ever survives to this point). -/
def globMultiSearch (penv : PathEnv) (fs : String → Option FSTree)
    (loader : ConfigLoader) (searches : List (String × GlobSearchSpec))
    (errorOnUnmatchedPattern : Bool) : Except FindError (List (Option String)) :=
  let normalizedSearches := searches.filter (fun e => !e.2.patterns.isEmpty)
  let results := normalizedSearches.map (fun e =>
    globSearch penv fs loader e.1 e.2.patterns e.2.rawPatterns errorOnUnmatchedPattern)
  match handleSearchErrors penv fs errorOnUnmatchedPattern
      (normalizedSearches.zip results) with
  | some e => .error e
  | none =>
      .ok (results.foldr (fun r acc =>
        (match r with
         | .ok v => v.map some
         | .error _ => [(none : Option String)]) ++ acc) [])

/-! ## `findFiles` -/

/-- The accumulators of `findFiles` while classifying the input patterns:
literal-file results, the `searches` map (seeded with `cwd`), and the
missing patterns. -/
structure ClassifyState where
  results : List String
  searches : List (String × GlobSearchSpec)
  missingPatterns : List String
deriving DecidableEq

/-- Add a (pattern, raw pattern) pair to the search group keyed by `key`,
creating the group if absent (the `searches.has`/`searches.set`/push
sequence of the source). -/
def searchesAdd (searches : List (String × GlobSearchSpec)) (key pat raw : String) :
    List (String × GlobSearchSpec) :=
  let seeded := if searches.any (fun e => e.1 = key) then searches
    else searches ++ [(key, ⟨[], []⟩)]
  seeded.map (fun e =>
    if e.1 = key then (e.1, ⟨e.2.patterns ++ [pat], e.2.rawPatterns ++ [raw]⟩) else e)

/-- The body of `stats.forEach` in `findFiles` for one input pattern:
a stat hit that is a file goes to the results, a directory seeds a group
with `<dir>/**`, any other stat hit falls through, and a stat miss is
either a glob (grouped under its glob parent) or a missing pattern. -/
def classifyStep (penv : PathEnv) (stat : String → Option FileKind) (cwd : String)
    (globInputPaths : Bool) (st : ClassifyState) (rawInput : String) : ClassifyState :=
  let filePath := penv.resolve cwd rawInput
  let pattern := normalizeToPosix rawInput
  match stat filePath with
  | some .file => { st with results := st.results ++ [filePath] }
  | some .directory =>
      { st with searches :=
          searchesAdd st.searches filePath (normalizeToPosix filePath ++ "/**") pattern }
  | some .other => st
  | none =>
      if globInputPaths && penv.isGlob pattern then
        { st with searches :=
            (searchesAdd st.searches (penv.resolve cwd (penv.globParent pattern))
              filePath pattern) }
      else { st with missingPatterns := st.missingPatterns ++ [pattern] }

/-- Classification of all input patterns, starting from the map seeded
with an empty `cwd` group. -/
def classifyPatterns (penv : PathEnv) (stat : String → Option FileKind) (cwd : String)
    (globInputPaths : Bool) (patterns : List String) : ClassifyState :=
  patterns.foldl (classifyStep penv stat cwd globInputPaths)
    ⟨[], [(cwd, ⟨[], []⟩)], []⟩

/-- `findFiles`: classify, fail fast on missing patterns when requested,
run the multi-search, and return the deduplicated concatenation of
literal files and search results. -/
def findFiles (penv : PathEnv) (stat : String → Option FileKind)
    (fs : String → Option FSTree) (loader : ConfigLoader) (patterns : List String)
    (globInputPaths : Bool) (cwd : String) (errorOnUnmatchedPattern : Bool) :
    Except FindError (List (Option String)) :=
  let st := classifyPatterns penv stat cwd globInputPaths patterns
  if errorOnUnmatchedPattern && !st.missingPatterns.isEmpty then
    .error (.noFilesFound (st.missingPatterns.headD "") globInputPaths)
  else
    match globMultiSearch penv fs loader st.searches errorOnUnmatchedPattern with
    | .error e => .error e
    | .ok globbyResults => .ok (jsSetDedup (st.results.map some ++ globbyResults))

/-! ## A concrete evaluation world

A small concrete instantiation of the abstract library functions and of
the filesystem, used to evaluate the theorems on explicit inputs.  The
working directory is `/r`; `/r` holds `x.js`, `y.txt` and a
subdirectory `sub` with `z.js`; `/r/a` is a directory holding `x.js`;
`/r/p` is a stat-able entry that is neither a file nor a directory. -/

/-- Concrete `path.resolve` for the inputs exercised here: resolving the
empty path returns the base itself. -/
def resolveW (base r : String) : String :=
  if r = "" then base else base ++ "/" ++ r

/-- Concrete `path.relative`: strip the `base/` prefix when present. -/
def relativeW (base p : String) : String :=
  if (base.data ++ ['/']).isPrefixOf p.data then ⟨p.data.drop (base.data.length + 1)⟩
  else p

/-- Concrete `is-glob`: a star anywhere makes a glob. -/
def isGlobW (p : String) : Bool := p.data.contains '*'

/-- Concrete `glob-parent` for the patterns exercised here. -/
def globParentW (p : String) : String := if p = "q/*.js" then "q" else ""

/-- Minimatch full-match table (true pairs of pattern and path). -/
def mmMatchW (pat pth : String) : Bool :=
  [("*.js", "x.js"), ("**", "x.js"), ("**", "y.txt"), ("**", "sub"),
   ("**", "sub/z.js")].contains (pat, pth)

/-- Minimatch prefix-match table for directory descent. -/
def mmMatchDirW (pat pth : String) : Bool :=
  [("**", "sub")].contains (pat, pth)

/-- The concrete path environment. -/
def penvW : PathEnv :=
  { isGlob := isGlobW, globParent := globParentW, resolve := resolveW,
    relative := relativeW, mmMatch := mmMatchW, mmMatchDir := mmMatchDirW }

/-- Listing of `/r`. -/
def treeR : FSTree :=
  .file "x.js" (.file "y.txt" (.dir "sub" (.file "z.js" .nil) .nil))

/-- Listing of `/r/a`. -/
def treeA : FSTree := .file "x.js" .nil

/-- The concrete filesystem as seen by the walker. -/
def fsW (p : String) : Option FSTree :=
  if p = "/r" then some treeR else if p = "/r/a" then some treeA else none

/-- The concrete `fsp.stat`. -/
def statW (p : String) : Option FileKind :=
  if p = "/r/a" then some .directory
  else if p = "/r/a/x.js" then some .file
  else if p = "/r/p" then some .other
  else none

/-- Concrete `getConfig` results: configs exist for the `.js` files. -/
def gW (p : String) : Option Unit :=
  if p = "/r/x.js" then some () else if p = "/r/a/x.js" then some ()
  else if p = "/r/sub/z.js" then some () else none

/-- A provider that ignores nothing. -/
def dNone (_ : String) : Bool := false

/-- A provider that would ignore the base path `/r` itself. -/
def dRoot (p : String) : Bool := p == "/r"

/-- The usual concrete loader. -/
def loaderW : ConfigLoader := ConfigLoader.total gW dNone

/-- A loader whose `getConfig` is absent everywhere. -/
def loaderAbsent : ConfigLoader := ConfigLoader.total (fun _ => none) dNone

/-- A loader that throws on every `getConfig` call (a provider/system
error). -/
def loaderFail : ConfigLoader :=
  { getConfig := fun _ => .error "EACCES", isDirectoryIgnored := fun _ => .ok false }

example : globSearch penvW fsW loaderW "/r" ["/r/*.js"] ["*.js"] true =
    .ok ["/r/x.js"] := by decide

example : globSearch penvW fsW loaderW "/r" ["/r/**"] ["**"] true =
    .ok ["/r/x.js", "/r/sub/z.js"] := by decide

example : findFiles penvW statW fsW loaderW ["a/x.js"] true "/r" true =
    .ok [some "/r/a/x.js"] := by decide

example : findFiles penvW statW fsW loaderAbsent ["*.js"] true "/r" true =
    .error (.allFilesIgnored "*.js") := by decide

example : findFiles penvW statW fsW loaderFail ["a"] true "/r" false =
    .error (.system "EACCES") := by decide

example : findFiles penvW statW fsW loaderW ["nope"] true "/r" true =
    .error (.noFilesFound "nope" true) := by decide

example : findFiles penvW statW fsW loaderW ["q/*.js"] true "/r" true =
    .error (.noFilesFound "q/*.js" true) := by decide

/-! ## Helper lemmas -/

lemma jsSetDedupAux_mem {α : Type} [DecidableEq α] (seen l : List α) (x : α) :
    x ∈ jsSetDedupAux seen l ↔ x ∈ l ∧ x ∉ seen := by
  induction l generalizing seen with
  | nil => simp [jsSetDedupAux]
  | cons a l ih =>
      simp only [jsSetDedupAux]
      by_cases h : a ∈ seen
      · rw [if_pos h, ih]
        constructor
        · rintro ⟨h1, h2⟩; exact ⟨List.mem_cons_of_mem _ h1, h2⟩
        · rintro ⟨h1, h2⟩
          rcases List.mem_cons.mp h1 with rfl | h1
          · exact absurd h h2
          · exact ⟨h1, h2⟩
      · rw [if_neg h]
        simp only [List.mem_cons, ih]
        constructor
        · rintro (rfl | ⟨h1, h2⟩)
          · exact ⟨Or.inl rfl, h⟩
          · exact ⟨Or.inr h1, fun hx => h2 (Or.inr hx)⟩
        · rintro ⟨rfl | h1, h2⟩
          · exact Or.inl rfl
          · by_cases hxa : x = a
            · exact Or.inl hxa
            · exact Or.inr ⟨h1, fun hx => hx.elim hxa h2⟩

lemma jsSetDedupAux_nodup {α : Type} [DecidableEq α] (seen l : List α) :
    (jsSetDedupAux seen l).Nodup := by
  induction l generalizing seen with
  | nil => simp [jsSetDedupAux]
  | cons a l ih =>
      simp only [jsSetDedupAux]
      by_cases h : a ∈ seen
      · rw [if_pos h]; exact ih seen
      · rw [if_neg h]
        refine List.nodup_cons.mpr ⟨fun hmem => ?_, ih (a :: seen)⟩
        exact ((jsSetDedupAux_mem _ _ _).mp hmem).2 (List.mem_cons_self a seen)

lemma jsSetDedup_mem {α : Type} [DecidableEq α] (l : List α) (x : α) :
    x ∈ jsSetDedup l ↔ x ∈ l := by
  simp [jsSetDedup, jsSetDedupAux_mem]

lemma jsSetDedup_nodup {α : Type} [DecidableEq α] (l : List α) :
    (jsSetDedup l).Nodup := jsSetDedupAux_nodup [] l

lemma classifyStep_results (penv : PathEnv) (stat : String → Option FileKind)
    (cwd : String) (gip : Bool) (st : ClassifyState) (p : String) :
    ∃ t, (classifyStep penv stat cwd gip st p).results = st.results ++ t := by
  rcases h : stat (penv.resolve cwd p) with _ | k
  · by_cases hg : (gip && penv.isGlob (normalizeToPosix p)) = true
    · exact ⟨[], by simp [classifyStep, h, hg]⟩
    · exact ⟨[], by simp [classifyStep, h, hg]⟩
  · cases k
    · exact ⟨[penv.resolve cwd p], by simp [classifyStep, h]⟩
    · exact ⟨[], by simp [classifyStep, h]⟩
    · exact ⟨[], by simp [classifyStep, h]⟩

lemma classifyFold_results (penv : PathEnv) (stat : String → Option FileKind)
    (cwd : String) (gip : Bool) (ps : List String) (st : ClassifyState) :
    ∃ t, (ps.foldl (classifyStep penv stat cwd gip) st).results = st.results ++ t := by
  induction ps generalizing st with
  | nil => exact ⟨[], by simp⟩
  | cons q ps ih =>
      obtain ⟨t1, h1⟩ := classifyStep_results penv stat cwd gip st q
      obtain ⟨t2, h2⟩ := ih (classifyStep penv stat cwd gip st q)
      exact ⟨t1 ++ t2, by simp [List.foldl_cons, h2, h1]⟩

lemma classify_mem_results (penv : PathEnv) (stat : String → Option FileKind)
    (cwd : String) (gip : Bool) (ps : List String) (st : ClassifyState) (p : String)
    (hp : p ∈ ps) (hstat : stat (penv.resolve cwd p) = some FileKind.file) :
    penv.resolve cwd p ∈ (ps.foldl (classifyStep penv stat cwd gip) st).results := by
  induction ps generalizing st with
  | nil => cases hp
  | cons q ps ih =>
      rcases List.mem_cons.mp hp with rfl | hp
      · obtain ⟨t, ht⟩ := classifyFold_results penv stat cwd gip ps
          (classifyStep penv stat cwd gip st p)
        rw [List.foldl_cons, ht]
        have hmem : penv.resolve cwd p ∈ (classifyStep penv stat cwd gip st p).results := by
          simp [classifyStep, hstat]
        exact List.mem_append_left _ hmem
      · exact ih _ hp

/-! ## C7: fail fast on missing patterns -/

/-- C7: when `error_on_unmatched_pattern` is true and classification
leaves a non-empty missing set, `findFiles` fails immediately with
`no_files_found` carrying the first missing pattern and the
`glob_input_paths` flag; the filesystem walker `fs` and the provider
`loader` are universally quantified and unused, so no directory walk or
provider call can influence the outcome. -/
theorem findFiles_missing_fail_fast (penv : PathEnv) (stat : String → Option FileKind)
    (fs : String → Option FSTree) (loader : ConfigLoader) (patterns : List String)
    (gip : Bool) (cwd m : String) (rest : List String)
    (h : (classifyPatterns penv stat cwd gip patterns).missingPatterns = m :: rest) :
    findFiles penv stat fs loader patterns gip cwd true =
      .error (.noFilesFound m gip) := by
  simp [findFiles, h]

/-- Witness for C7 at a concrete input: the pattern `nope` neither stats
nor parses as a glob, so discovery fails with `no_files_found` before
any search. -/
theorem findFiles_missing_fail_fast_witness :
    (classifyPatterns penvW statW "/r" true ["nope"]).missingPatterns = ["nope"] ∧
    findFiles penvW statW fsW loaderW ["nope"] true "/r" true =
      .error (.noFilesFound "nope" true) :=
  ⟨by decide,
   findFiles_missing_fail_fast penvW statW fsW loaderW ["nope"] true "/r" "nope" []
     (by decide)⟩

/-! ## C6: the pattern classifier -/

/-- C6 counterexample: `/r/p` stats successfully as something that is
neither a regular file nor a directory, yet classification leaves the
state untouched — in particular the missing set stays empty, so the
pattern is NOT classified as `missing(raw)` (the `stats.forEach` body
returns early after a successful stat without pushing anywhere). -/
theorem classify_other_kind_counterexample :
    statW (penvW.resolve "/r" "p") = some FileKind.other ∧
    (classifyPatterns penvW statW "/r" true ["p"]).missingPatterns = [] ∧
    classifyPatterns penvW statW "/r" true ["p"] = ⟨[], [("/r", ⟨[], []⟩)], []⟩ := by
  refine ⟨by decide, by decide, by decide⟩

/-- The classifier's case analysis for one input pattern (shared helper;
the claim-level statement is `classify_cases` below). -/
lemma classify_single (penv : PathEnv) (stat : String → Option FileKind)
    (cwd : String) (gip : Bool) (p : String) :
    (stat (penv.resolve cwd p) = some FileKind.file →
      classifyPatterns penv stat cwd gip [p] =
        ⟨[penv.resolve cwd p], [(cwd, ⟨[], []⟩)], []⟩) ∧
    (stat (penv.resolve cwd p) = some FileKind.directory →
      classifyPatterns penv stat cwd gip [p] =
        ⟨[], searchesAdd [(cwd, ⟨[], []⟩)] (penv.resolve cwd p)
          (normalizeToPosix (penv.resolve cwd p) ++ "/**") (normalizeToPosix p), []⟩) ∧
    (stat (penv.resolve cwd p) = some FileKind.other →
      classifyPatterns penv stat cwd gip [p] = ⟨[], [(cwd, ⟨[], []⟩)], []⟩) ∧
    (stat (penv.resolve cwd p) = none →
      (gip && penv.isGlob (normalizeToPosix p)) = true →
      classifyPatterns penv stat cwd gip [p] =
        ⟨[], searchesAdd [(cwd, ⟨[], []⟩)]
          (penv.resolve cwd (penv.globParent (normalizeToPosix p)))
          (penv.resolve cwd p) (normalizeToPosix p), []⟩) ∧
    (stat (penv.resolve cwd p) = none →
      (gip && penv.isGlob (normalizeToPosix p)) = false →
      classifyPatterns penv stat cwd gip [p] =
        ⟨[], [(cwd, ⟨[], []⟩)], [normalizeToPosix p]⟩) := by
  refine ⟨fun h => ?_, fun h => ?_, fun h => ?_, fun h hg => ?_, fun h hg => ?_⟩ <;>
    simp [classifyPatterns, classifyStep, *]

/-- C6 amended: the classifier assigns each input pattern at most one
class, by this case analysis: a stat hit that is a regular file becomes
a literal-file result; a stat hit that is a directory seeds a search
group keyed by its own absolute path with the `<dir>/**` pattern; a stat
hit of any other kind is silently dropped (no class at all — NOT
classified as missing); a stat miss is a glob when glob input is enabled
and the normalized form is a glob pattern, and missing otherwise. -/
theorem classify_cases (penv : PathEnv) (stat : String → Option FileKind)
    (cwd : String) (gip : Bool) (p : String) :
    (stat (penv.resolve cwd p) = some FileKind.file →
      classifyPatterns penv stat cwd gip [p] =
        ⟨[penv.resolve cwd p], [(cwd, ⟨[], []⟩)], []⟩) ∧
    (stat (penv.resolve cwd p) = some FileKind.directory →
      classifyPatterns penv stat cwd gip [p] =
        ⟨[], searchesAdd [(cwd, ⟨[], []⟩)] (penv.resolve cwd p)
          (normalizeToPosix (penv.resolve cwd p) ++ "/**") (normalizeToPosix p), []⟩) ∧
    (stat (penv.resolve cwd p) = some FileKind.other →
      classifyPatterns penv stat cwd gip [p] = ⟨[], [(cwd, ⟨[], []⟩)], []⟩) ∧
    (stat (penv.resolve cwd p) = none →
      (gip && penv.isGlob (normalizeToPosix p)) = true →
      classifyPatterns penv stat cwd gip [p] =
        ⟨[], searchesAdd [(cwd, ⟨[], []⟩)]
          (penv.resolve cwd (penv.globParent (normalizeToPosix p)))
          (penv.resolve cwd p) (normalizeToPosix p), []⟩) ∧
    (stat (penv.resolve cwd p) = none →
      (gip && penv.isGlob (normalizeToPosix p)) = false →
      classifyPatterns penv stat cwd gip [p] =
        ⟨[], [(cwd, ⟨[], []⟩)], [normalizeToPosix p]⟩) :=
  classify_single penv stat cwd gip p

/-- Witness for C6's amended theorem at concrete inputs, one for each
class: a literal file, a literal directory, the dropped `other` kind, a
glob, and a missing pattern. -/
theorem classify_cases_witness :
    classifyPatterns penvW statW "/r" true ["a/x.js"] =
      ⟨["/r/a/x.js"], [("/r", ⟨[], []⟩)], []⟩ ∧
    classifyPatterns penvW statW "/r" true ["a"] =
      ⟨[], searchesAdd [("/r", ⟨[], []⟩)] "/r/a" ("/r/a" ++ "/**") "a", []⟩ ∧
    classifyPatterns penvW statW "/r" true ["p"] = ⟨[], [("/r", ⟨[], []⟩)], []⟩ ∧
    classifyPatterns penvW statW "/r" true ["*.js"] =
      ⟨[], searchesAdd [("/r", ⟨[], []⟩)] "/r" "/r/*.js" "*.js", []⟩ ∧
    classifyPatterns penvW statW "/r" true ["nope"] =
      ⟨[], [("/r", ⟨[], []⟩)], ["nope"]⟩ := by
  refine ⟨?_, ?_, ?_, ?_, ?_⟩
  · have h := (classify_cases penvW statW "/r" true "a/x.js").1 (by decide)
    simpa using h
  · have h := (classify_cases penvW statW "/r" true "a").2.1 (by decide)
    simpa using h
  · exact (classify_cases penvW statW "/r" true "p").2.2.1 (by decide)
  · have h := (classify_cases penvW statW "/r" true "*.js").2.2.2.1 (by decide) (by decide)
    simpa using h
  · have h := (classify_cases penvW statW "/r" true "nope").2.2.2.2 (by decide) (by decide)
    simpa using h

/-! ## C8: literal files are returned without provider consultation -/

/-- C8: every input pattern that resolves to an existing regular file
appears (as its absolute path) in a successful `findFiles` result.  The
provider `loader` is universally quantified — the conclusion holds even
for a provider with no configuration anywhere, so the file's inclusion
never depends on a provider consultation. -/
theorem literal_file_in_results (penv : PathEnv) (stat : String → Option FileKind)
    (fs : String → Option FSTree) (loader : ConfigLoader) (patterns : List String)
    (gip flag : Bool) (cwd p : String) (out : List (Option String))
    (hp : p ∈ patterns)
    (hstat : stat (penv.resolve cwd p) = some FileKind.file)
    (hok : findFiles penv stat fs loader patterns gip cwd flag = .ok out) :
    some (penv.resolve cwd p) ∈ out := by
  have hmem : penv.resolve cwd p ∈
      (classifyPatterns penv stat cwd gip patterns).results :=
    classify_mem_results penv stat cwd gip patterns _ p hp hstat
  simp only [findFiles] at hok
  split at hok
  · cases hok
  · split at hok
    · cases hok
    · rename_i g hg
      rw [Except.ok.injEq] at hok
      subst hok
      rw [jsSetDedup_mem]
      exact List.mem_append_left _ (List.mem_map_of_mem some hmem)

/-- Witness for C8: the literal file `a/x.js` is returned even under a
provider whose `getConfig` is absent everywhere. -/
theorem literal_file_in_results_witness :
    findFiles penvW statW fsW loaderAbsent ["a/x.js"] true "/r" true =
      .ok [some "/r/a/x.js"] ∧
    some "/r/a/x.js" ∈ [some "/r/a/x.js"] := by
  refine ⟨by decide, ?_⟩
  have h := literal_file_in_results penvW statW fsW loaderAbsent ["a/x.js"] true true
    "/r" "a/x.js" [some "/r/a/x.js"] (by decide) (by decide) (by decide)
  exact h

/-! ## C10: a base path that is not a directory -/

lemma mapSet_ne_nil (m : List (String × String)) (k v : String) :
    mapSet m k v ≠ [] := by
  unfold mapSet
  split
  · rename_i h
    intro hc
    rw [List.map_eq_nil_iff] at hc
    subst hc
    simp at h
  · simp

lemma relMap_ne_nil (penv : PathEnv) (basePath : String) (ps : List String)
    (m : List (String × String)) (h : m ≠ [] ∨ ps ≠ []) :
    ps.foldl (fun m2 p => mapSet m2 (normalizeToPosix (penv.relative basePath p)) p) m
      ≠ [] := by
  induction ps generalizing m with
  | nil =>
      rcases h with h | h
      · simpa using h
      · exact absurd rfl h
  | cons a ps ih =>
      rw [List.foldl_cons]
      exact ih _ (Or.inl (mapSet_ne_nil _ _ _))

/-- `globSearch` over a single pattern whose base path is not a
directory, with unmatched-pattern errors enabled: the walk reads
nothing and the internal error carries the pattern itself. -/
lemma globSearch_no_dir_single (penv : PathEnv) (fs : String → Option FSTree)
    (loader : ConfigLoader) (basePath pat raw : String) (hfs : fs basePath = none) :
    globSearch penv fs loader basePath [pat] [raw] true =
      .error (.unmatchedSearchPatterns basePath [pat] [pat] [raw]) := by
  simp [globSearch, hfs, mapSet, mapGet]

/-- The searches map after classifying a single glob pattern: the
pre-seeded `cwd` group is reused when the glob's base is `cwd` and
filtered out (being empty) otherwise. -/
lemma searchesAdd_seed_filter (cwd basePath fp np : String) :
    (searchesAdd [(cwd, ⟨[], []⟩)] basePath fp np).filter
        (fun e => !e.2.patterns.isEmpty) = [(basePath, ⟨[fp], [np]⟩)] := by
  by_cases h : cwd = basePath
  · subst h
    simp [searchesAdd]
  · simp [searchesAdd, h]

/-- C10: when a group's base path does not exist or is not a directory,
the group walk reads no entries: with unmatched errors enabled
`globSearch` raises the internal unmatched-patterns error, otherwise it
returns the empty list; `globMatch` returns `false` for every pattern
rather than raising; and end to end, a single glob input whose static
prefix resolves to such a base surfaces as `no_files_found` (not as a
system error). -/
theorem missing_base_path_behavior (penv : PathEnv) (stat : String → Option FileKind)
    (fs : String → Option FSTree) (loader : ConfigLoader)
    (basePath cwd p q : String) (qs raws : List String)
    (hfs : fs basePath = none)
    (hstat : stat (penv.resolve cwd p) = none)
    (hglob : penv.isGlob (normalizeToPosix p) = true)
    (hbase : penv.resolve cwd (penv.globParent (normalizeToPosix p)) = basePath) :
    (∃ u, u ≠ [] ∧ globSearch penv fs loader basePath (q :: qs) raws true =
        .error (.unmatchedSearchPatterns basePath u (q :: qs) raws)) ∧
    globSearch penv fs loader basePath (q :: qs) raws false = .ok [] ∧
    (∀ pat, globMatch penv fs basePath pat = false) ∧
    findFiles penv stat fs loader [p] true cwd true =
      .error (.noFilesFound (normalizeToPosix p) true) := by
  refine ⟨?_, ?_, ?_, ?_⟩
  · have hrm := relMap_ne_nil penv basePath (q :: qs) [] (Or.inr (by simp))
    obtain ⟨e, es, he⟩ := List.exists_cons_of_ne_nil hrm
    refine ⟨((e :: es).map Prod.fst).map (mapGet (e :: es)), by simp, ?_⟩
    simp only [globSearch, hfs, he]
    simp
  · simp [globSearch, hfs]
  · intro pat
    simp [globMatch, hfs]
  · have hcls := (classify_single penv stat cwd true p).2.2.2.1 hstat
      (by simp [hglob])
    rw [hbase] at hcls
    have hgs := globSearch_no_dir_single penv fs loader basePath
      (penv.resolve cwd p) (normalizeToPosix p) hfs
    have hgm : globMultiSearch penv fs loader
        (searchesAdd [(cwd, ⟨[], []⟩)] basePath (penv.resolve cwd p)
          (normalizeToPosix p)) true =
        .error (.noFilesFound (normalizeToPosix p) true) := by
      simp only [globMultiSearch, searchesAdd_seed_filter]
      simp [hgs, handleSearchErrors, FindError.hasBasePath, FindError.unmatchedOf,
        throwErrorForUnmatchedPatterns, globMatch, hfs]
    simp [findFiles, hcls, hgm]

/-- Witness for C10: the glob `q/*.js` has static prefix `q`, which does
not exist under `/r`; discovery reports `no_files_found`, and both walk
layers behave as stated. -/
theorem missing_base_path_behavior_witness :
    globSearch penvW fsW loaderW "/r/q" ["/r/q/*.js"] ["q/*.js"] false = .ok [] ∧
    findFiles penvW statW fsW loaderW ["q/*.js"] true "/r" true =
      .error (.noFilesFound "q/*.js" true) := by
  have h := missing_base_path_behavior penvW statW fsW loaderW "/r/q" "/r" "q/*.js"
    "/r/q/*.js" [] ["q/*.js"] (by decide) (by decide) (by decide) (by decide)
  exact ⟨h.2.1, h.2.2.2⟩

/-! ## C4: no discovery errors when `errorOnUnmatchedPattern` is false -/

/-- With unmatched-pattern errors disabled, `globSearch` can only fail
with a system (walk/provider) error. -/
lemma globSearch_false_error (penv : PathEnv) (fs : String → Option FSTree)
    (loader : ConfigLoader) (b : String) (ps rs : List String) (e : FindError)
    (h : globSearch penv fs loader b ps rs false = .error e) :
    ∃ msg, e = .system msg := by
  simp only [globSearch] at h
  split at h
  · cases h
  · split at h
    · rename_i msg hw
      rw [Except.error.injEq] at h
      exact ⟨msg, h.symm⟩
    · simp at h

/-- With unmatched-pattern errors disabled, the error loop of
`globMultiSearch` only surfaces an error without a `basePath`, and that
error is the rejection of one of the searches. -/
lemma handleSearchErrors_false_some (penv : PathEnv) (fs : String → Option FSTree)
    (l : List ((String × GlobSearchSpec) × Except FindError (List String)))
    (e : FindError) (h : handleSearchErrors penv fs false l = some e) :
    ∃ pr ∈ l, pr.2 = .error e ∧ e.hasBasePath = false := by
  induction l with
  | nil => cases h
  | cons hd rest ih =>
      rcases hd with ⟨s, r⟩
      cases r with
      | ok v =>
          simp only [handleSearchErrors] at h
          obtain ⟨pr, hm, h2⟩ := ih h
          exact ⟨pr, List.mem_cons_of_mem _ hm, h2⟩
      | error e0 =>
          simp only [handleSearchErrors] at h
          split at h
          · rename_i hb
            rw [Option.some.injEq] at h
            refine ⟨(s, .error e0), List.mem_cons_self _ _, by rw [h], ?_⟩
            rw [← h]
            simpa using hb
          · simp only [if_neg (by simp : ¬(false = true))] at h
            obtain ⟨pr, hm, h2⟩ := ih h
            exact ⟨pr, List.mem_cons_of_mem _ hm, h2⟩

/-- With unmatched-pattern errors disabled, `globMultiSearch` can only
fail with a system error. -/
lemma globMultiSearch_false_error (penv : PathEnv) (fs : String → Option FSTree)
    (loader : ConfigLoader) (searches : List (String × GlobSearchSpec))
    (e : FindError)
    (h : globMultiSearch penv fs loader searches false = .error e) :
    ∃ msg, e = .system msg := by
  simp only [globMultiSearch] at h
  split at h
  · rename_i e0 hh
    rw [Except.error.injEq] at h
    subst h
    obtain ⟨pr, hmem, hpr, _⟩ := handleSearchErrors_false_some penv fs _ e0 hh
    have h2 := (List.of_mem_zip hmem).2
    rw [List.mem_map] at h2
    obtain ⟨x, _, hx⟩ := h2
    rw [← hx] at hpr
    exact globSearch_false_error penv fs loader x.1 x.2.patterns x.2.rawPatterns e0 hpr
  · cases h

/-- C4: with `error_on_unmatched_pattern = false`, `findFiles` never
raises a discovery error: any error it returns is a system/provider
error (one with no `basePath`), and it is exactly the error the search
layer raised, propagated unchanged. -/
theorem findFiles_no_discovery_error (penv : PathEnv) (stat : String → Option FileKind)
    (fs : String → Option FSTree) (loader : ConfigLoader) (patterns : List String)
    (gip : Bool) (cwd : String) (e : FindError)
    (h : findFiles penv stat fs loader patterns gip cwd false = .error e) :
    ∃ msg, e = .system msg ∧
      globMultiSearch penv fs loader
        (classifyPatterns penv stat cwd gip patterns).searches false =
          .error (.system msg) := by
  simp only [findFiles] at h
  rw [if_neg (by simp)] at h
  cases hm : globMultiSearch penv fs loader
      (classifyPatterns penv stat cwd gip patterns).searches false with
  | error e2 =>
      rw [hm, Except.error.injEq] at h
      subst h
      obtain ⟨msg, hmsg⟩ := globMultiSearch_false_error penv fs loader _ e2 hm
      subst hmsg
      exact ⟨msg, rfl, rfl⟩
  | ok g => rw [hm] at h; cases h

/-- Witness for C4: a provider that throws `EACCES` on every
`getConfig`; with the flag off, `findFiles` propagates exactly that
system error. -/
theorem findFiles_no_discovery_error_witness :
    findFiles penvW statW fsW loaderFail ["a"] true "/r" false =
      .error (.system "EACCES") ∧
    ∃ msg, FindError.system "EACCES" = FindError.system msg ∧
      globMultiSearch penvW fsW loaderFail
        (classifyPatterns penvW statW "/r" true ["a"]).searches false =
          .error (.system msg) :=
  ⟨by decide,
   findFiles_no_discovery_error penvW statW fsW loaderFail ["a"] true "/r"
     (.system "EACCES") (by decide)⟩

/-! ## Characterizing the walk filters -/

/-- The matcher `reduce` of the entry filter, characterized: its boolean
result is "any matcher matches" and the unmatched set either stays put
(no config) or loses exactly the patterns of the matchers that match. -/
lemma matcherFold (penv : PathEnv) (r : String) (cfg : Bool) (ms : List String) :
    ∀ (b : Bool) (u : List String),
    (ms.foldl (fun acc m =>
        (penv.mmMatch m r || acc.1,
         if penv.mmMatch m r && cfg then acc.2.filter (fun q => q != m) else acc.2))
      (b, u))
    = (b || ms.any (fun m => penv.mmMatch m r),
       if cfg then
         u.filter (fun q => !(ms.any (fun m => (q == m) && penv.mmMatch m r)))
       else u) := by
  induction ms with
  | nil => intro b u; simp
  | cons m tl ih =>
      intro b u
      rw [List.foldl_cons, ih]
      simp only [Prod.mk.injEq]
      constructor
      · rw [List.any_cons, Bool.or_assoc, Bool.or_left_comm]
      · cases cfg with
        | false => simp
        | true =>
            cases hm : penv.mmMatch m r with
            | false =>
                simp only [hm, Bool.false_and, Bool.and_true, if_pos rfl,
                  if_neg (by simp : ¬(false = true))]
                refine List.filter_congr (fun q _ => ?_)
                simp [hm]
            | true =>
                simp only [hm, Bool.true_and, Bool.and_true, if_pos rfl, if_true,
                  List.filter_filter]
                refine List.filter_congr (fun q _ => ?_)
                cases hq : (q == m) <;> simp [hq, hm, bne]

/-- The full entry filter under a non-throwing provider: a file is
collected iff some matcher matches and the config is present; the
unmatched set is either untouched (when already empty, or when the
config is absent) or filtered of every matching matcher's pattern. -/
lemma entryFilterStep_total (penv : PathEnv) (g : String → Option Unit)
    (d : String → Bool) (matchers : List String) (basePath r : String)
    (s : WalkState) :
    entryFilterStep penv (ConfigLoader.total g d) matchers basePath r s =
      .ok ⟨(if matchers.any (fun m => penv.mmMatch m r) &&
              (g (penv.resolve basePath r)).isSome
            then s.files ++ [penv.resolve basePath r] else s.files),
           (if s.unmatched.isEmpty then s.unmatched
            else if (g (penv.resolve basePath r)).isSome then
              s.unmatched.filter
                (fun q => !(matchers.any (fun m => (q == m) && penv.mmMatch m r)))
            else s.unmatched)⟩ := by
  simp only [entryFilterStep, ConfigLoader.total]
  cases he : s.unmatched.isEmpty with
  | true => simp [he]
  | false =>
      rw [matcherFold]
      simp [he]

/-- The directory filter under a non-throwing provider: descend iff some
matcher prefix-matches and the provider does not ignore the directory. -/
lemma directoryFilterStep_total (penv : PathEnv) (g : String → Option Unit)
    (d : String → Bool) (matchers : List String) (basePath r : String) :
    directoryFilterStep penv (ConfigLoader.total g d) matchers basePath r =
      .ok (matchers.any (fun m => penv.mmMatchDir m r) &&
        !(d (penv.resolve basePath r))) := by
  simp only [directoryFilterStep, ConfigLoader.total]
  cases ha : matchers.any (fun m => penv.mmMatchDir m r) with
  | true => simp [ha]
  | false => simp [ha]

/-- The directory filter short-circuits: when no matcher prefix-matches,
the provider is never consulted — the filter returns `.ok false` for
EVERY provider, including one whose `isDirectoryIgnored` throws. -/
lemma directoryFilterStep_no_matcher (penv : PathEnv) (loader : ConfigLoader)
    (matchers : List String) (basePath r : String)
    (h : matchers.any (fun m => penv.mmMatchDir m r) = false) :
    directoryFilterStep penv loader matchers basePath r = .ok false := by
  simp [directoryFilterStep, h]

/-! ## Declarative characterization of one group walk -/

/-- The entries a walk reaches, as (relative path, is-directory) pairs in
visit order: children of the base are always reached; a directory's
children are reached iff some matcher prefix-matches its relative path
and the provider does not ignore its absolute path. -/
def reachEntries (penv : PathEnv) (d : String → Bool) (matchers : List String)
    (basePath : String) : FSTree → String → List (String × Bool)
  | .nil, _ => []
  | .file name rest, pre =>
      (joinRel pre name, false) :: reachEntries penv d matchers basePath rest pre
  | .dir name children rest, pre =>
      (joinRel pre name, true) ::
        ((if matchers.any (fun m => penv.mmMatchDir m (joinRel pre name)) &&
              !(d (penv.resolve basePath (joinRel pre name)))
          then reachEntries penv d matchers basePath children (joinRel pre name)
          else []) ++
         reachEntries penv d matchers basePath rest pre)

/-- The files a walk emits: reached non-directory entries matching some
matcher whose configuration is present, resolved against the base. -/
def emitFiles (penv : PathEnv) (g : String → Option Unit) (d : String → Bool)
    (matchers : List String) (basePath : String) (t : FSTree) (pre : String) :
    List String :=
  (reachEntries penv d matchers basePath t pre).filterMap (fun e =>
    if !e.2 && matchers.any (fun m => penv.mmMatch m e.1) &&
        (g (penv.resolve basePath e.1)).isSome
    then some (penv.resolve basePath e.1) else none)

/-- Under a non-throwing provider the walk always succeeds; it appends
exactly `emitFiles` to the collected files, and the unmatched set only
shrinks (the output is a sublist of the input). -/
lemma walkTree_total (penv : PathEnv) (g : String → Option Unit) (d : String → Bool)
    (matchers : List String) (basePath : String) :
    ∀ (t : FSTree) (pre : String) (s : WalkState),
    ∃ u, walkTree penv (ConfigLoader.total g d) matchers basePath t pre s =
        .ok ⟨s.files ++ emitFiles penv g d matchers basePath t pre, u⟩ ∧
      u.Sublist s.unmatched := by
  intro t
  induction t with
  | nil =>
      intro pre s
      exact ⟨s.unmatched, by simp [walkTree, emitFiles, reachEntries], .refl _⟩
  | file name rest ih =>
      intro pre s
      obtain ⟨u1, hw1, hs1⟩ := ih pre
        ⟨(if matchers.any (fun m => penv.mmMatch m (joinRel pre name)) &&
              (g (penv.resolve basePath (joinRel pre name))).isSome
           then s.files ++ [penv.resolve basePath (joinRel pre name)] else s.files),
         (if s.unmatched.isEmpty then s.unmatched
          else if (g (penv.resolve basePath (joinRel pre name))).isSome then
            s.unmatched.filter (fun q => !(matchers.any
              (fun m => (q == m) && penv.mmMatch m (joinRel pre name))))
          else s.unmatched)⟩
      refine ⟨u1, ?_, ?_⟩
      · rw [walkTree, entryFilterStep_total]
        dsimp only
        rw [hw1]
        simp only [Except.ok.injEq, WalkState.mk.injEq]
        refine ⟨?_, trivial⟩
        simp only [emitFiles, reachEntries, List.filterMap_cons]
        cases hc : matchers.any (fun m => penv.mmMatch m (joinRel pre name)) &&
            (g (penv.resolve basePath (joinRel pre name))).isSome with
        | true => simp [hc, List.append_assoc]
        | false => simp [hc]
      · refine hs1.trans ?_
        cases he : s.unmatched.isEmpty with
        | true => simp [he]
        | false =>
            cases hg : (g (penv.resolve basePath (joinRel pre name))).isSome with
            | true => simp [he, hg, List.filter_sublist]
            | false => simp [he, hg]
  | dir name children rest ih1 ih2 =>
      intro pre s
      cases hb : matchers.any (fun m => penv.mmMatchDir m (joinRel pre name)) &&
          !(d (penv.resolve basePath (joinRel pre name))) with
      | true =>
          obtain ⟨u1, hw1, hs1⟩ := ih1 (joinRel pre name) s
          obtain ⟨u2, hw2, hs2⟩ := ih2 pre
            ⟨s.files ++ emitFiles penv g d matchers basePath children (joinRel pre name), u1⟩
          refine ⟨u2, ?_, hs2.trans hs1⟩
          rw [walkTree, directoryFilterStep_total, hb]
          dsimp only
          rw [hw1]
          dsimp only
          rw [hw2]
          simp only [Except.ok.injEq, WalkState.mk.injEq]
          refine ⟨?_, trivial⟩
          simp [emitFiles, reachEntries, hb, List.append_assoc]
      | false =>
          obtain ⟨u1, hw1, hs1⟩ := ih2 pre s
          refine ⟨u1, ?_, hs1⟩
          rw [walkTree, directoryFilterStep_total, hb]
          dsimp only
          rw [hw1]
          simp only [Except.ok.injEq, WalkState.mk.injEq]
          refine ⟨?_, trivial⟩
          simp [emitFiles, reachEntries, hb]

/-! ## C1: file inclusion during a group walk -/

lemma emitFiles_nil_matchers (penv : PathEnv) (g : String → Option Unit)
    (d : String → Bool) (basePath : String) (t : FSTree) (pre : String) :
    emitFiles penv g d [] basePath t pre = [] := by
  simp [emitFiles]

/-- C1: in a successful group walk under a non-throwing provider, the
returned files are exactly the reached non-directory entries that some
compiled matcher matches and whose configuration is present, as absolute
paths; equivalently, a path is returned iff such an entry exists, and in
particular every returned path has a present configuration (a file whose
configuration is absent is never emitted). -/
theorem globSearch_includes_iff (penv : PathEnv) (fs : String → Option FSTree)
    (g : String → Option Unit) (d : String → Bool) (basePath : String)
    (patterns raws : List String) (flag : Bool) (tree : FSTree)
    (matchers : List String) (out : List String)
    (hm : matchers = patterns.map (fun p => normalizeToPosix (penv.relative basePath p)))
    (htree : fs basePath = some tree)
    (hok : globSearch penv fs (ConfigLoader.total g d) basePath patterns raws flag =
      .ok out) :
    out = emitFiles penv g d matchers basePath tree "" ∧
    (∀ pth, pth ∈ out ↔ ∃ e ∈ reachEntries penv d matchers basePath tree "",
        e.2 = false ∧ matchers.any (fun m => penv.mmMatch m e.1) = true ∧
        (g (penv.resolve basePath e.1)).isSome = true ∧
        pth = penv.resolve basePath e.1) ∧
    (∀ pth ∈ out, (g pth).isSome = true) := by
  subst hm
  have h1 : out = emitFiles penv g d
      (patterns.map (fun p => normalizeToPosix (penv.relative basePath p)))
      basePath tree "" := by
    cases patterns with
    | nil =>
        have hnil : globSearch penv fs (ConfigLoader.total g d) basePath [] raws flag =
            .ok [] := rfl
        rw [hnil, Except.ok.injEq] at hok
        rw [← hok, List.map_nil, emitFiles_nil_matchers]
    | cons p ps =>
        simp only [globSearch, htree] at hok
        rw [if_neg (by simp)] at hok
        obtain ⟨u, hw, _⟩ := walkTree_total penv g d
          ((p :: ps).map (fun q => normalizeToPosix (penv.relative basePath q)))
          basePath tree ""
          ⟨[], ((p :: ps).foldl
            (fun m q => mapSet m (normalizeToPosix (penv.relative basePath q)) q)
            []).map Prod.fst⟩
        rw [hw] at hok
        dsimp only at hok
        split at hok
        · cases hok
        · rw [Except.ok.injEq] at hok
          rw [← hok, List.nil_append]
  refine ⟨h1, ?_, ?_⟩
  · intro pth
    rw [h1, emitFiles, List.mem_filterMap]
    constructor
    · rintro ⟨e, he, hf⟩
      by_cases hc : (!e.2 &&
          (patterns.map (fun p => normalizeToPosix (penv.relative basePath p))).any
            (fun m => penv.mmMatch m e.1) &&
          (g (penv.resolve basePath e.1)).isSome) = true
      · rw [if_pos hc, Option.some.injEq] at hf
        rw [Bool.and_eq_true, Bool.and_eq_true] at hc
        refine ⟨e, he, ?_, hc.1.2, hc.2, hf.symm⟩
        have := hc.1.1
        cases h2 : e.2
        · rfl
        · rw [h2] at this; cases this
      · rw [if_neg hc] at hf
        cases hf
    · rintro ⟨e, he, h2, h3, h4, h5⟩
      refine ⟨e, he, ?_⟩
      rw [if_pos (by rw [h2, h3, h4]; rfl), h5]
  · intro pth hmem
    rw [h1, emitFiles, List.mem_filterMap] at hmem
    obtain ⟨e, he, hf⟩ := hmem
    by_cases hc : (!e.2 &&
        (patterns.map (fun p => normalizeToPosix (penv.relative basePath p))).any
          (fun m => penv.mmMatch m e.1) &&
        (g (penv.resolve basePath e.1)).isSome) = true
    · rw [if_pos hc, Option.some.injEq] at hf
      rw [Bool.and_eq_true, Bool.and_eq_true] at hc
      rw [← hf]
      exact hc.2
    · rw [if_neg hc] at hf
      cases hf

/-- Witness for C1: walking `/r` with the single matcher `**`, the walk
returns `x.js` and `sub/z.js` (both matched, configs present) and skips
`y.txt` (config absent); the result coincides with the declarative
emitted-files characterization. -/
theorem globSearch_includes_iff_witness :
    globSearch penvW fsW (ConfigLoader.total gW dNone) "/r" ["/r/**"] ["**"] true =
      .ok ["/r/x.js", "/r/sub/z.js"] ∧
    ["/r/x.js", "/r/sub/z.js"] = emitFiles penvW gW dNone ["**"] "/r" treeR "" :=
  ⟨by decide,
   (globSearch_includes_iff penvW fsW gW dNone "/r" ["/r/**"] ["**"] true treeR
     ["**"] ["/r/x.js", "/r/sub/z.js"] (by decide) (by decide) (by decide)).1⟩

/-! ## C5: the unmatched set only shrinks -/

/-- C5: across a whole walk the unmatched set only shrinks (the output
is a sublist of the input).  At one file entry, a pattern `q` is removed
exactly when the set was non-empty, the file's configuration is present,
and `q` is the pattern of a matcher that matches the file.  Once the set
is empty, the entry filter leaves it empty and decides inclusion by the
short-circuit `any` over the matchers. -/
theorem unmatched_set_invariants (penv : PathEnv) (g : String → Option Unit)
    (d : String → Bool) (matchers : List String) (basePath r : String)
    (t : FSTree) (pre : String) (s s' w w' : WalkState)
    (hstep : entryFilterStep penv (ConfigLoader.total g d) matchers basePath r s =
      .ok s')
    (hwalk : walkTree penv (ConfigLoader.total g d) matchers basePath t pre w =
      .ok w') :
    w'.unmatched.Sublist w.unmatched ∧
    (∀ q, (q ∈ s.unmatched ∧ q ∉ s'.unmatched) ↔
       (s.unmatched ≠ [] ∧ (g (penv.resolve basePath r)).isSome = true ∧
        q ∈ s.unmatched ∧ q ∈ matchers ∧ penv.mmMatch q r = true)) ∧
    (s.unmatched = [] →
       s' = ⟨(if matchers.any (fun m => penv.mmMatch m r) &&
                (g (penv.resolve basePath r)).isSome
              then s.files ++ [penv.resolve basePath r] else s.files), []⟩) := by
  rw [entryFilterStep_total, Except.ok.injEq] at hstep
  refine ⟨?_, ?_, ?_⟩
  · obtain ⟨u, hw2, hsub⟩ := walkTree_total penv g d matchers basePath t pre w
    rw [hwalk, Except.ok.injEq] at hw2
    rw [hw2]
    exact hsub
  · intro q
    rw [← hstep]
    cases he : s.unmatched.isEmpty with
    | true =>
        have hempty : s.unmatched = [] := List.isEmpty_iff.mp he
        simp only [he, if_pos rfl]
        constructor
        · rintro ⟨h1, h2⟩; exact absurd h1 h2
        · rintro ⟨hne, -⟩; exact absurd hempty hne
    | false =>
        have hne : s.unmatched ≠ [] := by
          intro hc; rw [hc] at he; cases he
        simp only [he]
        rw [if_neg (by simp)]
        cases hg : (g (penv.resolve basePath r)).isSome with
        | false =>
            rw [if_neg (by simp)]
            constructor
            · rintro ⟨h1, h2⟩; exact absurd h1 h2
            · rintro ⟨-, hcontra, -⟩; cases hcontra
        | true =>
            rw [if_pos rfl]
            constructor
            · rintro ⟨h1, h2⟩
              refine ⟨hne, rfl, h1, ?_⟩
              have hpred : ¬(q ∈ s.unmatched ∧
                  (!(matchers.any (fun m => (q == m) && penv.mmMatch m r))) = true) :=
                fun hc => h2 (List.mem_filter.mpr hc)
              have hany : matchers.any (fun m => (q == m) && penv.mmMatch m r) = true := by
                by_contra hcon
                exact hpred ⟨h1, by simp [Bool.eq_false_iff.mpr hcon]⟩
              obtain ⟨m, hmem, hqm⟩ := List.any_eq_true.mp hany
              rw [Bool.and_eq_true] at hqm
              have : q = m := beq_iff_eq.mp hqm.1
              subst this
              exact ⟨hmem, hqm.2⟩
            · rintro ⟨-, -, h1, hm, hmm⟩
              refine ⟨h1, fun hc => ?_⟩
              have := (List.mem_filter.mp hc).2
              rw [Bool.not_eq_true'] at this
              have hany : matchers.any (fun m => (q == m) && penv.mmMatch m r) = true :=
                List.any_eq_true.mpr ⟨q, hm, by rw [beq_self_eq_true, hmm]; rfl⟩
              rw [hany] at this
              cases this
  · intro h0
    rw [← hstep, h0]
    simp

/-- Witness for C5: at `x.js` (matched by `*.js`, config present) the
unmatched set shrinks from the singleton to empty, and the whole-walk
unmatched output is a sublist of its input. -/
theorem unmatched_set_invariants_witness :
    entryFilterStep penvW (ConfigLoader.total gW dNone) ["*.js"] "/r" "x.js"
      ⟨[], ["*.js"]⟩ = .ok ⟨["/r/x.js"], []⟩ ∧
    (("*.js" ∈ (["*.js"] : List String) ∧ "*.js" ∉ ([] : List String)) ↔
      ((["*.js"] : List String) ≠ [] ∧ (gW (penvW.resolve "/r" "x.js")).isSome = true ∧
       "*.js" ∈ (["*.js"] : List String) ∧ "*.js" ∈ (["*.js"] : List String) ∧
       penvW.mmMatch "*.js" "x.js" = true)) := by
  have h := unmatched_set_invariants penvW gW dNone ["*.js"] "/r" "x.js"
    treeR "" ⟨[], ["*.js"]⟩ ⟨["/r/x.js"], []⟩ ⟨[], ["*.js"]⟩ ⟨["/r/x.js"], []⟩
    (by decide) (by decide)
  exact ⟨by decide, h.2.1 "*.js"⟩

/-! ## C2: directory descent and the root override -/

lemma joinRel_ne_empty (pre name : String) (h : name ≠ "") :
    joinRel pre name ≠ "" := by
  unfold joinRel
  split
  · exact h
  · intro hc
    have hlen := congrArg String.length hc
    rw [String.length_append, String.length_append] at hlen
    have h1 : ("/" : String).length = 1 := rfl
    rw [h1] at hlen
    simp at hlen

/-- The walk never consults the provider's `isDirectoryIgnored` at the
base path itself: two providers agreeing everywhere except at the base
path produce identical walks (the filters only ever see the nonempty
relative paths of proper descendants). -/
lemma walkTree_ignored_congr (penv : PathEnv) (g : String → Option Unit)
    (d d' : String → Bool) (matchers : List String) (basePath : String)
    (hd : ∀ x, x ≠ basePath → d x = d' x)
    (hres : ∀ rp, rp ≠ "" → penv.resolve basePath rp ≠ basePath) :
    ∀ (t : FSTree) (pre : String) (s : WalkState), t.okNames = true →
      walkTree penv (ConfigLoader.total g d) matchers basePath t pre s =
      walkTree penv (ConfigLoader.total g d') matchers basePath t pre s := by
  intro t
  induction t with
  | nil => intro pre s _; rfl
  | file name rest ih =>
      intro pre s hok
      simp only [FSTree.okNames, Bool.and_eq_true] at hok
      simp only [walkTree, entryFilterStep_total]
      rw [ih _ _ hok.2]
  | dir name children rest ih1 ih2 =>
      intro pre s hok
      simp only [FSTree.okNames, Bool.and_eq_true] at hok
      obtain ⟨⟨hname, hch⟩, hrest⟩ := hok
      have hr : joinRel pre name ≠ "" := joinRel_ne_empty _ _ (by simpa using hname)
      have hdd : d (penv.resolve basePath (joinRel pre name)) =
          d' (penv.resolve basePath (joinRel pre name)) := hd _ (hres _ hr)
      simp only [walkTree, directoryFilterStep_total, hdd, ih1, ih2, hch, hrest]

/-- C2: under a non-throwing provider the directory filter descends into
a directory iff some matcher prefix-matches its relative path and the
provider does not ignore its absolute path; when no matcher
prefix-matches, the provider is not consulted (the filter answers
`.ok false` for every provider, throwing ones included); and the group's
base path itself is never pruned: changing whether the provider ignores
the base path cannot change the search result. -/
theorem directoryFilter_spec (penv : PathEnv) (fs : String → Option FSTree)
    (g : String → Option Unit) (d d' : String → Bool) (matchers : List String)
    (basePath : String) (tree : FSTree) (patterns raws : List String) (flag : Bool)
    (htree : fs basePath = some tree)
    (hwf : tree.okNames = true)
    (hres : ∀ rp, rp ≠ "" → penv.resolve basePath rp ≠ basePath)
    (hd : ∀ x, x ≠ basePath → d x = d' x) :
    (∀ rp, directoryFilterStep penv (ConfigLoader.total g d) matchers basePath rp =
       .ok (matchers.any (fun m => penv.mmMatchDir m rp) &&
         !(d (penv.resolve basePath rp)))) ∧
    (∀ (loader : ConfigLoader) rp,
       matchers.any (fun m => penv.mmMatchDir m rp) = false →
       directoryFilterStep penv loader matchers basePath rp = .ok false) ∧
    globSearch penv fs (ConfigLoader.total g d) basePath patterns raws flag =
      globSearch penv fs (ConfigLoader.total g d') basePath patterns raws flag := by
  refine ⟨fun rp => directoryFilterStep_total penv g d matchers basePath rp,
    fun loader rp h => directoryFilterStep_no_matcher penv loader matchers basePath rp h,
    ?_⟩
  simp only [globSearch, htree]
  rw [walkTree_ignored_congr penv g d d'
    (patterns.map (fun p => normalizeToPosix (penv.relative basePath p)))
    basePath hd hres tree "" _ hwf]

/-- Witness for C2: a provider that would ignore the base path `/r`
itself (`dRoot`) yields exactly the same search result as one that
ignores nothing — the root override in action. -/
theorem directoryFilter_spec_witness :
    dRoot "/r" = true ∧
    globSearch penvW fsW (ConfigLoader.total gW dNone) "/r" ["/r/**"] ["**"] false =
      globSearch penvW fsW (ConfigLoader.total gW dRoot) "/r" ["/r/**"] ["**"] false := by
  refine ⟨by decide, ?_⟩
  have h := directoryFilter_spec penvW fsW gW dNone dRoot ["**"] "/r" treeR
    ["/r/**"] ["**"] false (by decide) (by decide) ?_ ?_
  · exact h.2.2
  · intro rp hrp hc
    have hc2 : resolveW "/r" rp = "/r" := hc
    rw [resolveW, if_neg hrp] at hc2
    have hlen := congrArg String.length hc2
    rw [String.length_append, String.length_append] at hlen
    have h1 : ("/" : String).length = 1 := rfl
    have h2 : ("/r" : String).length = 2 := rfl
    rw [h1, h2] at hlen
    omega
  · intro x hx
    have : (x == "/r") = false := beq_eq_false_iff_ne.mpr hx
    simp [dNone, dRoot, this]

/-! ## C3: reconciling unmatched patterns -/

lemma handleSearchErrors_skip (penv : PathEnv) (fs : String → Option FSTree)
    (flag : Bool) (l rest : List ((String × GlobSearchSpec) × Except FindError (List String)))
    (h : ∀ pr ∈ l, ∃ v, pr.2 = Except.ok v) :
    handleSearchErrors penv fs flag (l ++ rest) = handleSearchErrors penv fs flag rest := by
  induction l with
  | nil => rfl
  | cons hd tl ih =>
      obtain ⟨v, hv⟩ := h hd (List.mem_cons_self _ _)
      rcases hd with ⟨s, r⟩
      dsimp at hv
      subst hv
      simp only [List.cons_append, handleSearchErrors]
      exact ih (fun pr hpr => h pr (List.mem_cons_of_mem _ hpr))

lemma zip_map_self {α β : Type} (l : List α) (F : α → β) :
    l.zip (l.map F) = l.map (fun x => (x, F x)) := by
  induction l with
  | nil => rfl
  | cons a tl ih => simp [ih]

/-- C3: when a group walk finishes with a non-empty unmatched set (its
`globSearch` rejects with the internal unmatched-patterns error) and
unmatched errors are enabled, `findFiles` raises exactly the one error
produced by the reconciler for the FIRST unmatched pattern of the first
failing group: `all_files_ignored(raw)` when the configuration-disabled
second walk finds a match for it, `no_files_found(raw, true)` otherwise.
The remaining unmatched patterns play no part in the outcome. -/
theorem findFiles_unmatched_reconciler (penv : PathEnv)
    (stat : String → Option FileKind) (fs : String → Option FSTree)
    (loader : ConfigLoader) (patterns : List String) (gip : Bool) (cwd : String)
    (b : String) (ps rs : List String) (b2 : String) (u ps2 rs2 : List String)
    (u0 : String) (urest : List String)
    (pre post : List (String × GlobSearchSpec))
    (hmiss : (classifyPatterns penv stat cwd gip patterns).missingPatterns = [])
    (hsplit : (classifyPatterns penv stat cwd gip patterns).searches.filter
        (fun e => !e.2.patterns.isEmpty) = pre ++ (b, ⟨ps, rs⟩) :: post)
    (hpre : ∀ e ∈ pre, ∃ v,
        globSearch penv fs loader e.1 e.2.patterns e.2.rawPatterns true = .ok v)
    (herr : globSearch penv fs loader b ps rs true =
        .error (.unmatchedSearchPatterns b2 u ps2 rs2))
    (hu : u = u0 :: urest) :
    findFiles penv stat fs loader patterns gip cwd true =
      .error (throwErrorForUnmatchedPatterns penv fs b ps rs u) ∧
    throwErrorForUnmatchedPatterns penv fs b ps rs u =
      (if globMatch penv fs b u0 then
         FindError.allFilesIgnored (rs.getD (ps.indexOf u0) "")
       else FindError.noFilesFound (rs.getD (ps.indexOf u0) "") true) := by
  constructor
  · have hgm : globMultiSearch penv fs loader
        (classifyPatterns penv stat cwd gip patterns).searches true =
        .error (throwErrorForUnmatchedPatterns penv fs b ps rs u) := by
      simp only [globMultiSearch]
      rw [hsplit, List.map_append, List.map_cons,
        List.zip_append (List.length_map pre _).symm, List.zip_cons_cons,
        handleSearchErrors_skip penv fs true _ _ ?hpre2]
      case hpre2 =>
        intro pr hpr
        rw [zip_map_self, List.mem_map] at hpr
        obtain ⟨x, hx, hpx⟩ := hpr
        obtain ⟨v, hv⟩ := hpre x hx
        exact ⟨v, by rw [← hpx]; exact hv⟩
      simp only [handleSearchErrors, herr, FindError.hasBasePath,
        FindError.unmatchedOf, Bool.not_true]
      rfl
    simp only [findFiles]
    rw [if_neg (by simp [hmiss]), hgm]
  · simp [throwErrorForUnmatchedPatterns, hu]

/-- Witness for C3: the glob `*.js` matches `x.js` under `/r` but its
configuration is absent, so the group walk ends with `*.js` unmatched;
the reconciler's ignore-free second walk finds the match, and
`findFiles` raises `all_files_ignored("*.js")`. -/
theorem findFiles_unmatched_reconciler_witness :
    findFiles penvW statW fsW loaderAbsent ["*.js"] true "/r" true =
      .error (throwErrorForUnmatchedPatterns penvW fsW "/r" ["/r/*.js"] ["*.js"]
        ["/r/*.js"]) ∧
    throwErrorForUnmatchedPatterns penvW fsW "/r" ["/r/*.js"] ["*.js"] ["/r/*.js"] =
      .allFilesIgnored "*.js" := by
  have h := findFiles_unmatched_reconciler penvW statW fsW loaderAbsent ["*.js"]
    true "/r" "/r" ["/r/*.js"] ["*.js"] "/r" ["/r/*.js"] ["/r/*.js"] ["*.js"]
    "/r/*.js" [] [] [] (by decide) (by decide)
    (fun e he => absurd he (List.not_mem_nil e)) (by decide) rfl
  exact ⟨h.1, by decide⟩

/-! ## C9: structure of a successful result -/

lemma handleSearchErrors_none_true (penv : PathEnv) (fs : String → Option FSTree)
    (l : List ((String × GlobSearchSpec) × Except FindError (List String)))
    (h : handleSearchErrors penv fs true l = none) :
    ∀ pr ∈ l, ∃ v, pr.2 = Except.ok v := by
  induction l with
  | nil => intro pr hpr; cases hpr
  | cons hd tl ih =>
      rcases hd with ⟨s, r⟩
      cases r with
      | ok v =>
          simp only [handleSearchErrors] at h
          intro pr hpr
          rcases List.mem_cons.mp hpr with rfl | hpr
          · exact ⟨v, rfl⟩
          · exact ih h pr hpr
      | error e0 =>
          simp only [handleSearchErrors] at h
          split at h
          · cases h
          · simp at h

lemma handleSearchErrors_none_false (penv : PathEnv) (fs : String → Option FSTree)
    (l : List ((String × GlobSearchSpec) × Except FindError (List String)))
    (h : handleSearchErrors penv fs false l = none) :
    ∀ pr ∈ l, ∀ e, pr.2 = Except.error e → e.hasBasePath = true := by
  induction l with
  | nil => intro pr hpr; cases hpr
  | cons hd tl ih =>
      rcases hd with ⟨s, r⟩
      cases r with
      | ok v =>
          simp only [handleSearchErrors] at h
          intro pr hpr e hpe
          rcases List.mem_cons.mp hpr with rfl | hpr
          · cases hpe
          · exact ih h pr hpr e hpe
      | error e0 =>
          simp only [handleSearchErrors] at h
          split at h
          · cases h
          · rename_i hb
            rw [if_neg (by simp)] at h
            intro pr hpr e hpe
            rcases List.mem_cons.mp hpr with rfl | hpr
            · rw [Except.error.injEq] at hpe
              subst hpe
              simpa using hb
            · exact ih h pr hpr e hpe

lemma foldr_ok_structure (rs : List (Except FindError (List String)))
    (h : ∀ r ∈ rs, ∃ v, r = Except.ok v) :
    ∃ gl : List (List String), rs = gl.map Except.ok ∧
      (rs.foldr (fun r acc =>
        (match r with
         | .ok v => v.map some
         | .error _ => [(none : Option String)]) ++ acc) []) =
      gl.flatten.map some := by
  induction rs with
  | nil => exact ⟨[], rfl, rfl⟩
  | cons r tl ih =>
      obtain ⟨v, hv⟩ := h r (List.mem_cons_self _ _)
      subst hv
      obtain ⟨gl, h1, h2⟩ := ih (fun r hr => h r (List.mem_cons_of_mem _ hr))
      refine ⟨v :: gl, by rw [List.map_cons, h1], ?_⟩
      rw [List.foldr_cons, h2]
      simp

lemma globMultiSearch_ok (penv : PathEnv) (fs : String → Option FSTree)
    (loader : ConfigLoader) (searches : List (String × GlobSearchSpec)) (flag : Bool)
    (gres : List (Option String))
    (h : globMultiSearch penv fs loader searches flag = .ok gres) :
    ∃ glists : List (List String),
      (searches.filter (fun e => !e.2.patterns.isEmpty)).map
        (fun e => globSearch penv fs loader e.1 e.2.patterns e.2.rawPatterns flag) =
        glists.map Except.ok ∧
      gres = glists.flatten.map some := by
  simp only [globMultiSearch] at h
  split at h
  · cases h
  · rename_i hnone
    rw [Except.ok.injEq] at h
    have hall : ∀ r ∈ (searches.filter (fun e => !e.2.patterns.isEmpty)).map
        (fun e => globSearch penv fs loader e.1 e.2.patterns e.2.rawPatterns flag),
        ∃ v, r = Except.ok v := by
      intro r hr
      rw [List.mem_map] at hr
      obtain ⟨x, hx, hFx⟩ := hr
      have hz : (x, globSearch penv fs loader x.1 x.2.patterns x.2.rawPatterns flag) ∈
          (searches.filter (fun e => !e.2.patterns.isEmpty)).zip
            ((searches.filter (fun e => !e.2.patterns.isEmpty)).map
              (fun e => globSearch penv fs loader e.1 e.2.patterns e.2.rawPatterns flag)) := by
        rw [zip_map_self]
        exact List.mem_map_of_mem _ hx
      cases flag with
      | true =>
          obtain ⟨v, hv⟩ := handleSearchErrors_none_true penv fs _ hnone _ hz
          exact ⟨v, by rw [← hFx]; exact hv⟩
      | false =>
          cases hres : globSearch penv fs loader x.1 x.2.patterns x.2.rawPatterns false with
          | ok v => exact ⟨v, by rw [← hFx, hres]⟩
          | error e =>
              have hbp := handleSearchErrors_none_false penv fs _ hnone _ hz e
                (by dsimp only; exact hres)
              obtain ⟨msg, hmsg⟩ := globSearch_false_error penv fs loader
                x.1 x.2.patterns x.2.rawPatterns e hres
              subst hmsg
              cases hbp
    obtain ⟨gl, h1, h2⟩ := foldr_ok_structure _ hall
    exact ⟨gl, h1, by rw [← h, h2]⟩

/-- C9: every successful `findFiles` result is exactly the literal files
followed by the concatenated per-group walk results (every group having
succeeded), deduplicated preserving first occurrence; consequently the
result has no duplicates (and contains no `undefined` entry). -/
theorem findFiles_dedup_structure (penv : PathEnv) (stat : String → Option FileKind)
    (fs : String → Option FSTree) (loader : ConfigLoader) (patterns : List String)
    (gip : Bool) (cwd : String) (flag : Bool) (out : List (Option String))
    (hok : findFiles penv stat fs loader patterns gip cwd flag = .ok out) :
    ∃ glists : List (List String),
      ((classifyPatterns penv stat cwd gip patterns).searches.filter
          (fun e => !e.2.patterns.isEmpty)).map
        (fun e => globSearch penv fs loader e.1 e.2.patterns e.2.rawPatterns flag) =
        glists.map Except.ok ∧
      out = jsSetDedup ((classifyPatterns penv stat cwd gip patterns).results.map some
        ++ glists.flatten.map some) ∧
      out.Nodup ∧ (none : Option String) ∉ out := by
  simp only [findFiles] at hok
  split at hok
  · cases hok
  · split at hok
    · cases hok
    · rename_i gres hgm
      rw [Except.ok.injEq] at hok
      obtain ⟨gl, h1, h2⟩ := globMultiSearch_ok penv fs loader _ flag gres hgm
      refine ⟨gl, h1, by rw [← hok, h2], ?_, ?_⟩
      · rw [← hok]; exact jsSetDedup_nodup _
      · rw [← hok]
        intro hc
        rw [jsSetDedup_mem, h2] at hc
        rcases List.mem_append.mp hc with hc | hc <;>
        · rw [List.mem_map] at hc
          obtain ⟨y, -, hy⟩ := hc
          exact Option.noConfusion hy

/-- Witness for C9: `a/x.js` is a literal file and `a` a literal
directory whose walk also yields `a/x.js`; the result deduplicates the
two occurrences, keeping one, with no duplicates left. -/
theorem findFiles_dedup_structure_witness :
    findFiles penvW statW fsW loaderW ["a/x.js", "a"] true "/r" true =
      .ok [some "/r/a/x.js"] ∧
    ∃ glists : List (List String),
      ((classifyPatterns penvW statW "/r" true ["a/x.js", "a"]).searches.filter
          (fun e => !e.2.patterns.isEmpty)).map
        (fun e => globSearch penvW fsW loaderW e.1 e.2.patterns e.2.rawPatterns true) =
        glists.map Except.ok ∧
      [some "/r/a/x.js"] = jsSetDedup
        ((classifyPatterns penvW statW "/r" true ["a/x.js", "a"]).results.map some
          ++ glists.flatten.map some) ∧
      ([some "/r/a/x.js"] : List (Option String)).Nodup ∧
      (none : Option String) ∉ ([some "/r/a/x.js"] : List (Option String)) :=
  ⟨by decide,
   findFiles_dedup_structure penvW statW fsW loaderW ["a/x.js", "a"] true "/r" true
     [some "/r/a/x.js"] (by decide)⟩

end EslintFileDiscovery
